import Mathlib

/-!
Shallow embedding of the rolling-record checkpoint engine of the smartnode
watchtower (shared/services/rewards/files.go, watchtower package section),
together with theorems settling the specification claims about it.

Conventions of the embedding:
* Machine bytes are `Nat`s (each < 256 in practice); byte slices are `List Nat`.
* The durable store is an association list from filenames to byte contents;
  `writeFile` replaces any previous entry for the same name.
* External collaborators that are not part of this repository's source
  (the zstd compressor/decompressor, the SHA-384 function from crypto/sha512,
  the record serializer/deserializer of the rewards package, the beacon state
  provider) are taken as explicit function parameters, so every theorem holds
  for all of their behaviours.
* Go's `strings.Split` is embedded by structurally recursive functions for the
  two separators the source uses (`"\n"` and two spaces), so that all
  definitions evaluate inside the kernel.
-/

namespace Smartnode

/-- Byte strings (Go `[]byte`), one `Nat` per byte. -/
abbrev Bytes := List Nat

/-- The durable file store: an association list from full filenames to contents. -/
abbrev FileSystem := List (String × Bytes)

/-- Reading a file returns its contents, or `none` when the file is absent
(Go `os.ReadFile` returning an error). -/
def readFile (fs : FileSystem) (name : String) : Option Bytes :=
  match fs.find? (fun p => p.1 == name) with
  | some p => some p.2
  | none => none

/-- Writing a file creates it or replaces its previous contents
(Go `os.WriteFile`). -/
def writeFile (fs : FileSystem) (name : String) (contents : Bytes) : FileSystem :=
  (name, contents) :: fs.filter (fun p => p.1 != name)

/-- Embedding of Go `strings.Split(s, sep)` for a one-character separator,
as used on `"\n"` in `loadRecordFromDisk`: splits around every occurrence of
the separator, keeping empty fields. -/
def splitChar (sep : Char) : List Char → List (List Char)
  | [] => [[]]
  | c :: rest =>
    if c = sep then [] :: splitChar sep rest
    else
      match splitChar sep rest with
      | [] => [[c]]
      | f :: fs => (c :: f) :: fs

/-- Embedding of Go `strings.Split(s, "  ")` (two spaces), as used on each
catalog line: splits around every non-overlapping leftmost occurrence of the
two-space separator. -/
def splitTwoSpaces : List Char → List (List Char)
  | [] => [[]]
  | [c] => [[c]]
  | c1 :: c2 :: rest =>
    if c1 = ' ' ∧ c2 = ' ' then [] :: splitTwoSpaces rest
    else
      match splitTwoSpaces (c2 :: rest) with
      | [] => [[c1]]
      | f :: fs => (c1 :: f) :: fs

/-- Split a string into its newline-separated lines, Go
`strings.Split(s, "\n")`. -/
def splitLines (s : String) : List String :=
  (splitChar '\n' s.toList).map fun cs => String.mk cs

/-- Split a catalog line on the two-space separator, Go
`strings.Split(line, "  ")`. -/
def splitFields (s : String) : List String :=
  (splitTwoSpaces s.toList).map fun cs => String.mk cs

/-- Value of a single hexadecimal digit, or `none` when the character is not
a hex digit (Go `encoding/hex`). -/
def hexDigitVal (c : Char) : Option Nat :=
  if '0' ≤ c ∧ c ≤ '9' then some (c.toNat - '0'.toNat)
  else if 'a' ≤ c ∧ c ≤ 'f' then some (c.toNat - 'a'.toNat + 10)
  else if 'A' ≤ c ∧ c ≤ 'F' then some (c.toNat - 'A'.toNat + 10)
  else none

/-- Embedding of Go `hex.DecodeString`: decodes pairs of hex digits into
bytes, failing on an odd length or a non-hex character. -/
def hexDecodeChars : List Char → Option Bytes
  | [] => some []
  | [_] => none
  | c1 :: c2 :: rest =>
    match hexDigitVal c1, hexDigitVal c2, hexDecodeChars rest with
    | some h, some l, some tail => some ((16 * h + l) :: tail)
    | _, _, _ => none

/-- Decode a hexadecimal string into bytes (Go `hex.DecodeString`). -/
def hexDecode (s : String) : Option Bytes :=
  hexDecodeChars s.toList

/-- Lowercase hex digit for a value below 16 (Go `encoding/hex`). -/
def hexDigitChar (n : Nat) : Char :=
  if n < 10 then Char.ofNat ('0'.toNat + n) else Char.ofNat ('a'.toNat + n - 10)

/-- Embedding of Go `hex.EncodeToString`: lowercase hex, two digits per byte. -/
def hexEncode (b : Bytes) : String :=
  String.mk (b.foldr (fun x acc => hexDigitChar (x / 16) :: hexDigitChar (x % 16) :: acc) [])

/-- Decimal digits of a natural number, used to embed `fmt.Sprintf("%d", n)`. -/
def decimalString (n : Nat) : String := toString n

/-- The in-memory rolling record (rewards.RollingRecord). The per-validator
performance totals are kept abstract as an association list from validator
index to accumulated total; the claims under verification only inspect the
slot bookkeeping fields and whole-record equality. -/
structure RollingRecord where
  StartSlot : Nat
  LastProcessedSlot : Nat
  PendingSlot : Nat
  Totals : List (Nat × Nat)
  deriving DecidableEq, Repr

/-- Modelled from the spec: `rewards.NewRollingRecord` is not under src/ (only
its callers are). Per the data-model section, a record is "created fresh at a
chosen startSlot when no usable checkpoint exists" as a fresh `Empty` record
starting at `startSlot`, with no accumulated totals and its slot bookkeeping
at the start slot. -/
def NewRollingRecord (startSlot : Nat) : RollingRecord :=
  { StartSlot := startSlot
    LastProcessedSlot := startSlot
    PendingSlot := startSlot
    Totals := [] }

/-- Error values of the checkpoint store. The Go source produces errors with
`fmt.Errorf`; each constructor corresponds to one `return ... err` site in
files.go, and the two wrapper constructors mirror the `%w` wrapping of an
inner error into an outer message. -/
inductive RecError where
  /-- The checksum table itself could not be read (fatal to the call). -/
  | checksumTableReadError
  /-- A catalog line did not split into exactly 2 fields on the two-space
  separator; carries the line and the number of fields obtained. -/
  | parseLineError (line : String) (numElems : Nat)
  /-- A filename did not match the records filename pattern. -/
  | slotFilenameFormatError (filename : String)
  /-- The slot digits of a filename overflowed `strconv.ParseUint(_, 10, 64)`. -/
  | slotParseError (filename : String)
  /-- A recorded checksum field was not valid hexadecimal. -/
  | checksumHexError (line : String) (checksumString : String)
  /-- Wrapper for "error scanning checkpoint line (%s): %w". -/
  | scanLineError (line : String) (e : RecError)
  /-- Wrapper for "error loading record from file (%s): %w". -/
  | loadFileError (filename : String) (e : RecError)
  /-- A checkpoint file named by the catalog could not be read. -/
  | readFileError (filename : String)
  /-- The integrity failure: the recomputed SHA-384 of the file contents did
  not equal the checksum recorded in the catalog. -/
  | checksumMismatchError (expected : Bytes) (actual : Bytes)
  /-- The zstd decompressor rejected the file contents. -/
  | decompressError
  /-- The record deserializer rejected the decompressed bytes. -/
  | deserializeError
  /-- The record serializer failed during a save. -/
  | serializeError
  /-- A Go runtime panic from indexing `lines[i]` outside its bounds. -/
  | indexOutOfRange (index : Nat)
  deriving DecidableEq, Repr

/-- Maximal leading run of decimal digits of a character list, with the rest
(the greedy `\d+` of the records filename pattern). -/
def takeDigits : List Char → List Char × List Char
  | [] => ([], [])
  | c :: rest =>
    if c.isDigit then
      let (d, r) := takeDigits rest
      (c :: d, r)
    else ([], c :: rest)

/-- Attempt to match the records filename pattern
`(?P<slot>\d+)\-(?P<epoch>\d+)\.json\.zst` at the start of the character
list, returning the slot digit group on success. Both digit groups are
greedy; each is followed by a character no digit run could extend past, so
greedy matching and maximal-run matching coincide. -/
def matchRecordsPatternAt (s : List Char) : Option (List Char) :=
  let (d1, r1) := takeDigits s
  if d1.isEmpty then none
  else
    match r1 with
    | '-' :: r2 =>
      let (d2, r3) := takeDigits r2
      if d2.isEmpty then none
      else if List.isPrefixOf ".json.zst".toList r3 then some d1 else none
    | _ => none

/-- Leftmost match of the records filename pattern in a character list
(Go `regexp.FindStringSubmatch` uses leftmost matching), returning the slot
digit group of the first position where the pattern matches. -/
def findRecordsPattern : List Char → Option (List Char)
  | [] => none
  | c :: rest =>
    match matchRecordsPatternAt (c :: rest) with
    | some d => some d
    | none => findRecordsPattern rest

/-- Numeric value of a digit string (Go `strconv.ParseUint` on an all-digit
string, before the 64-bit range check). -/
def digitsToNat (ds : List Char) : Nat :=
  ds.foldl (fun acc c => 10 * acc + (c.toNat - '0'.toNat)) 0

/-- Embedding of `getSlotFromFilename`: find the records filename pattern in
the filename, take its slot digit group, and parse it as a 64-bit unsigned
integer. Failure sites mirror the source: no pattern match, and
`strconv.ParseUint` overflow (the digit group is nonempty and all digits, so
overflow is the only way the parse can fail). The `SubexpIndex("slot")`
lookup cannot fail for the fixed pattern and has no error constructor. -/
def getSlotFromFilename (filename : String) : Except RecError Nat :=
  match findRecordsPattern filename.toList with
  | none => .error (.slotFilenameFormatError filename)
  | some digits =>
    let v := digitsToNat digits
    if v < 2 ^ 64 then .ok v else .error (.slotParseError filename)

/-- External collaborators of the checkpoint store, passed as explicit
functions: the SHA-384 hash (Go `sha512.Sum384`), the zstd decompressor
(`decompressor.DecodeAll`), the record deserializer
(`rewards.DeserializeRollingRecord`), and the durable file store. -/
structure StoreEnv where
  sha384 : Bytes → Bytes
  decompress : Bytes → Except Unit Bytes
  deserialize : Bytes → Except Unit RollingRecord
  fs : FileSystem

/-- Embedding of `loadRecordFromFile`: read the file, recompute its SHA-384,
compare it byte-for-byte with the catalog's recorded checksum, and only then
decompress and deserialize. A checksum mismatch produces the integrity error
and no record value is ever built from the mismatching bytes. -/
def loadRecordFromFile (env : StoreEnv) (filename : String) (expectedChecksum : Bytes) :
    Except RecError RollingRecord :=
  match readFile env.fs filename with
  | none => .error (.readFileError filename)
  | some compressedBytes =>
    let checksum := env.sha384 compressedBytes
    if expectedChecksum = checksum then
      match env.decompress compressedBytes with
      | .error _ => .error .decompressError
      | .ok b =>
        match env.deserialize b with
        | .error _ => .error .deserializeError
        | .ok record => .ok record
    else .error (.checksumMismatchError expectedChecksum checksum)

/-- Scan loop of `loadRecordFromDisk`. The Go loop is
`for i := len(lines) - 1; i >= 0; i++` — note the `i++` increment. We run the
identical iteration on the counter `j` with the invariant `i = lines.length - j`,
so the loop's `i++` is `j - 1` and the recursion is structural:
`j = 0` is `i = lines.length`, where Go's `lines[i]` panics with an
index-out-of-range runtime error, and `lines.length < j` is `i < 0`, the
loop's exit condition, where a fresh record is returned. The body is the
loop body of the source in order: skip blank lines, split on two spaces and
require exactly 2 fields, extract the slot from the filename, skip entries
whose slot exceeds `targetSlot` or `startSlot`, decode the checksum hex,
and load the file. -/
def loadLoop (env : StoreEnv) (startSlot targetSlot : Nat) (lines : List String) :
    Nat → Except RecError RollingRecord
  | 0 => .error (.indexOutOfRange lines.length)
  | j + 1 =>
    if lines.length < j + 1 then .ok (NewRollingRecord startSlot)
    else
      let i := lines.length - (j + 1)
      let line := lines.getD i ""
      if line = "" then loadLoop env startSlot targetSlot lines j
      else
        match splitFields line with
        | [checksumString, filename] =>
          match getSlotFromFilename filename with
          | .error e => .error (.scanLineError line e)
          | .ok slot =>
            if slot > targetSlot ∨ slot > startSlot then loadLoop env startSlot targetSlot lines j
            else
              match hexDecode checksumString with
              | none => .error (.checksumHexError line checksumString)
              | some checksum =>
                match loadRecordFromFile env filename checksum with
                | .error e => .error (.loadFileError filename e)
                | .ok record => .ok record
        | other => .error (.parseLineError line other.length)

/-- Embedding of `loadRecordFromDisk`: read the checksum table (its absence
is fatal to the call), split it into lines, and run the scan loop starting
at `i = lines.length - 1`, which is `j = 1` in the counter of `loadLoop`.
`catalog` is the result of reading the checksum table file. -/
def loadRecordFromDisk (env : StoreEnv) (startSlot targetSlot : Nat)
    (catalog : Option String) : Except RecError RollingRecord :=
  match catalog with
  | none => .error .checksumTableReadError
  | some content => loadLoop env startSlot targetSlot (splitLines content) 1

/-- Checkpoint filename for a slot and epoch under the records path:
`filepath.Join(recordsPath, fmt.Sprintf("%d-%d.json.zst", slot, epoch))`. -/
def recordsFilename (recordsPath : String) (slot epoch : Nat) : String :=
  recordsPath ++ "/" ++ decimalString slot ++ "-" ++ decimalString epoch ++ ".json.zst"

/-- Embedding of `saveRecordToFile`: serialize the record, compress it, write
the checkpoint file named from `(lastProcessedSlot, epoch)`, compute the
SHA-384 of the compressed bytes, and append a `<hex>␠␠<filename>\n` line to
the checksum table. There is no guard comparing `lastProcessedSlot` with the
last saved slot: every invocation appends a catalog line. Returns the
updated file store and catalog contents. -/
def saveRecordToFile (sha384 : Bytes → Bytes) (compress : Bytes → Bytes)
    (serialize : RollingRecord → Except Unit Bytes) (slotsPerEpoch : Nat)
    (recordsPath : String) (record : RollingRecord) (fs : FileSystem)
    (catalog : String) : Except RecError (FileSystem × String) :=
  match serialize record with
  | .error _ => .error .serializeError
  | .ok b =>
    let compressedBytes := compress b
    let slot := record.LastProcessedSlot
    let epoch := record.LastProcessedSlot / slotsPerEpoch
    let filename := recordsFilename recordsPath slot epoch
    let fs' := writeFile fs filename compressedBytes
    let checksum := sha384 compressedBytes
    let checksumLine := hexEncode checksum ++ "  " ++ filename ++ "\n"
    .ok (fs', catalog ++ checksumLine)

/-- Ceiling of `a / b` for `b > 0`, the value `math.Ceil` produces on the
exact real quotient. The source computes
`uint64(math.Ceil(totalTimespan.Seconds() / float64(secondsPerSlot)))`; all
quantities involved are whole numbers of seconds far below 2^53, where
float64 arithmetic is exact, so the float computation is embedded as the
exact mathematical ceiling `-⌊-a / b⌋`. -/
def ceilDivInt (a b : Int) : Int :=
  -(Int.fdiv (-a) b)

/-- Embedding of `isNetworkBalanceUpdateRequired`. In the source the
submission-flag lookup (`RocketStorage.GetBool`) and the block-header lookup
(`HeaderByNumber`) are external calls; their results `hasSubmitted` and
`blockTime` (the header's timestamp, whole seconds) are inputs here, and the
error returns of those calls are outside the embedding. The final slot is
`uint64(timeSinceGenesis.Seconds()) / secondsPerSlot`; for header times at
or after genesis both times are whole seconds, so the float conversion is
the exact difference. Returns (whether a submission is due, the slot). -/
def isNetworkBalanceUpdateRequired (latestReportableBalancesBlock balancesBlock : Nat)
    (hasSubmitted : Bool) (blockTime genesisTime secondsPerSlot : Nat) : Bool × Nat :=
  if latestReportableBalancesBlock ≤ balancesBlock then (false, 0)
  else if hasSubmitted then (false, 0)
  else
    let timeSinceGenesis := blockTime - genesisTime
    let slotNumber := timeSinceGenesis / secondsPerSlot
    (true, slotNumber)

/-- Embedding of `isRewardsIntervalSubmissionRequired`. Inputs are whole
seconds (`genesisTime`, the interval start `startTime`, the interval
duration `intervalTime`) and the snapshot's beacon slot plus beacon config;
the external submission-flag lookup result is the input `hasSubmitted`.
Durations in the source are Go signed integers and their division truncates
toward zero, embedded by `Int.tdiv`; the float ceiling is `ceilDivInt` and
the `uint64` conversion of its (in the due case nonnegative) value is
`Int.toNat`. The computation mirrors the source line for line: state time
from the slot, intervals passed since the interval start, interval end time,
the zero-intervals and already-submitted early exits, then the target slot
snapped forward to the last slot of its epoch. -/
def isRewardsIntervalSubmissionRequired (genesisTime startTime intervalTime : Nat)
    (beaconSlotNumber secondsPerSlot slotsPerEpoch : Nat) (hasSubmitted : Bool) :
    Bool × Nat :=
  let stateTime : Int := (genesisTime : Int) + ((secondsPerSlot * beaconSlotNumber : Nat) : Int)
  let timeSinceStart : Int := stateTime - (startTime : Int)
  let intervalsPassed : Int := Int.tdiv timeSinceStart (intervalTime : Int)
  let endTime : Int := (startTime : Int) + (intervalTime : Int) * intervalsPassed
  if intervalsPassed = 0 then (false, 0)
  else if hasSubmitted then (false, 0)
  else
    let totalTimespan : Int := endTime - (genesisTime : Int)
    let targetSlot := (ceilDivInt totalTimespan (secondsPerSlot : Int)).toNat
    let targetSlotEpoch := targetSlot / slotsPerEpoch
    (true, targetSlotEpoch * slotsPerEpoch + (slotsPerEpoch - 1))

/-- The earliest-required-slot selection of `ProcessNewHeadState` (the
`var earliestRequiredSlot uint64` block): when both obligations are due the
smaller of the two target slots, otherwise the target slot of whichever is
due; the variable keeps its zero value when neither is due (in the source
that path returned earlier). -/
def earliestRequiredSlot (isNetworkBalanceUpdateDue : Bool) (networkBalanceSlot : Nat)
    (isRewardsSubmissionDue : Bool) (rewardsSlot : Nat) : Nat :=
  if isNetworkBalanceUpdateDue ∧ isRewardsSubmissionDue then
    if networkBalanceSlot < rewardsSlot then networkBalanceSlot else rewardsSlot
  else if isNetworkBalanceUpdateDue then networkBalanceSlot
  else if isRewardsSubmissionDue then rewardsSlot
  else 0

/-- Outcome of one `ProcessNewHeadState` invocation. -/
inductive HeadStateOutcome where
  /-- Neither obligation due: the `updateToSlot(latestFinalizedSlot)` path
  ran and the function returned (nil on success). -/
  | recordUpdated
  /-- A due path reached the end of the function body. The source has no
  `return` statement after the duty branches: the not-yet-finalized branch
  only logs (`"%s TODO: Message goes here"`) and the finalized case has no
  code at all, so control falls off the end of a function that must return
  `error`, which Go rejects at compile time ("missing return").
  `loggedNotYetFinalized` records whether the log branch ran. -/
  | fellOffEnd (loggedNotYetFinalized : Bool)
  deriving DecidableEq, Repr

/-- Embedding of the control flow of `ProcessNewHeadState` after the two
due checks have produced their `(due, slot)` results (those checks are
embedded and verified separately; their external error returns are outside
this embedding). -/
def ProcessNewHeadState (latestFinalizedSlot : Nat) (balanceCheck : Bool × Nat)
    (rewardsCheck : Bool × Nat) : HeadStateOutcome :=
  if ¬balanceCheck.1 ∧ ¬rewardsCheck.1 then .recordUpdated
  else
    let earliest := earliestRequiredSlot balanceCheck.1 balanceCheck.2
      rewardsCheck.1 rewardsCheck.2
    if latestFinalizedSlot < earliest then .fellOffEnd true
    else .fellOffEnd false

/-- A point-in-time network state snapshot as far as `updateToSlot` consumes
it (state.NetworkState). -/
structure StateSnapshot where
  BeaconSlotNumber : Nat
  ElBlockNumber : Nat
  deriving DecidableEq, Repr

/-- Error values of `updateToSlot`. -/
inductive UpdateErr where
  /-- The state provider failed for the requested slot. -/
  | getStateError (slot : Nat)
  /-- The record's own update failed. -/
  | updateToStateError (slot : Nat)
  deriving DecidableEq, Repr

/-- Embedding of `updateToSlot`. The state provider (`mgr.GetStateForSlot`)
and the record update (`Record.UpdateToState`, in the rewards package) are
external collaborators passed as functions; `updateToState` returns the
started flag together with the updated record. The result is the
`(bool, error)` pair of the source, the record afterwards, and whether a
state retrieval was performed. The guard is the source's
`if r.Record.PendingSlot >= slot` early exit, which performs no retrieval
and leaves the record untouched. -/
def updateToSlot (getState : Nat → Except Unit StateSnapshot)
    (updateToState : RollingRecord → StateSnapshot → Except Unit (Bool × RollingRecord))
    (record : RollingRecord) (slot : Nat) :
    Except UpdateErr Bool × RollingRecord × Bool :=
  if record.PendingSlot ≥ slot then (.ok false, record, false)
  else
    match getState slot with
    | .error _ => (.error (.getStateError slot), record, true)
    | .ok st =>
      match updateToState record st with
      | .error _ => (.error (.updateToStateError slot), record, true)
      | .ok (updateStarted, record') => (.ok updateStarted, record', true)

/-- Modelled from the spec: `config.RewardsTreeIpfsExtension` is not under
src/; the comment on `CompressedCid` and the external-interfaces section fix
it as the `.zst` extension appended to mark the compressed distributable
form. -/
def RewardsTreeIpfsExtension : String := ".zst"

/-- Last path component, Go `filepath.Base`, for the slash-separated
filenames the wrapper produces. -/
def baseName (p : String) : String :=
  ((splitChar '/' p.toList).map String.mk).getLastD p

/-- Error values of `CompressedCid`. -/
inductive CidError where
  /-- Serialization of the wrapped artifact failed. -/
  | serializeError
  /-- The single-file directory CID computation failed. -/
  | cidError
  deriving DecidableEq, Repr

/-- Embedding of `LocalFile.CompressedCid`. The zstd compressor (a fixed
best-compression profile, deterministic) and `singleFileDirIPFSCid` (defined
elsewhere in the repository) are passed as functions; `serializeResult` is
the outcome of the wrapped artifact's `Serialize`. On success the compressed
bytes are written to the full path with the IPFS extension appended, and the
CID computed over the compressed bytes and the base filename is returned
together with the updated file store. -/
def CompressedCid {C : Type} (compress : Bytes → Bytes)
    (singleFileDirIPFSCid : Bytes → String → Except Unit C)
    (serializeResult : Except Unit Bytes) (fullPath : String) (fs : FileSystem) :
    Except CidError (C × FileSystem) :=
  match serializeResult with
  | .error _ => .error .serializeError
  | .ok data =>
    let compressedBytes := compress data
    let filename := fullPath ++ RewardsTreeIpfsExtension
    match singleFileDirIPFSCid compressedBytes (baseName filename) with
    | .error _ => .error .cidError
    | .ok c => .ok (c, writeFile fs filename compressedBytes)

theorem readFile_writeFile (fs : FileSystem) (name : String) (b : Bytes) :
    readFile (writeFile fs name b) name = some b := by
  simp [readFile, writeFile]

theorem writeFile_writeFile (fs : FileSystem) (name : String) (b : Bytes) :
    writeFile (writeFile fs name b) name b = writeFile fs name b := by
  simp [writeFile, List.filter_filter]

/-- C1: the claim asserts the recovery scan walks the catalog newest to
oldest with a strictly decreasing index, terminating, and that an empty or
fully-exhausted catalog yields a fresh record rather than a fault. The
as-written loop is `for i := len(lines) - 1; i >= 0; i++` — the index
increases, contradicting the adjacent comment "counting backwards from the
bottom" — so after the first skipped line `lines[i]` is indexed out of
range. On an empty catalog file (a single blank line) and on a catalog whose
only entry is above `startSlot` (fully exhausted), recovery ends in the Go
index-out-of-range panic instead of a fresh record. -/
theorem loadRecordFromDisk_exhausted_catalog_panics :
    loadRecordFromDisk ⟨fun b => b, fun b => .ok b, fun _ => .ok (NewRollingRecord 0), []⟩
        0 0 (some "") = .error (.indexOutOfRange 1) ∧
    loadRecordFromDisk ⟨fun b => b, fun b => .ok b, fun _ => .ok (NewRollingRecord 0),
        [("r/100-3.json.zst", [0])]⟩ 50 500 (some "00  r/100-3.json.zst") =
      .error (.indexOutOfRange 1) :=
  ⟨rfl, rfl⟩

/-- C2: the claim asserts that with checkpoints at slots 100, 200 and 300,
`recover(startSlot := 250, targetSlot := 280)` returns the checkpoint at
slot 200, and `recover(startSlot := 50, targetSlot := 500)` returns a fresh
record at 50. On the catalog the saver actually writes (newline-terminated
lines, oldest first) the scan starts at the trailing blank line, skips it,
increments the index past the end of the line list and panics before
examining a single entry — in both scenarios. The slot-bound skip condition
itself matches the claim, but no selection ever happens. -/
theorem loadRecordFromDisk_selection_panics :
    loadRecordFromDisk ⟨fun b => b, fun b => .ok b, fun _ => .ok (NewRollingRecord 0),
        [("r/100-3.json.zst", [0]), ("r/200-6.json.zst", [0]), ("r/300-9.json.zst", [0])]⟩
        250 280
        (some "00  r/100-3.json.zst\n00  r/200-6.json.zst\n00  r/300-9.json.zst\n") =
      .error (.indexOutOfRange 4) ∧
    loadRecordFromDisk ⟨fun b => b, fun b => .ok b, fun _ => .ok (NewRollingRecord 0),
        [("r/100-3.json.zst", [0]), ("r/200-6.json.zst", [0]), ("r/300-9.json.zst", [0])]⟩
        50 500
        (some "00  r/100-3.json.zst\n00  r/200-6.json.zst\n00  r/300-9.json.zst\n") =
      .error (.indexOutOfRange 4) :=
  ⟨rfl, rfl⟩

/-- C3: for every checkpoint file whose SHA-384 hash differs from the hash
recorded in the catalog entry, `loadRecordFromFile` fails with the integrity
error carrying the expected and actual hashes; since the result is that
error, no record value is produced from the mismatching bytes, for any
behaviour of the decompressor and deserializer. -/
theorem loadRecordFromFile_checksum_mismatch (env : StoreEnv) (filename : String)
    (expected b : Bytes) (hread : readFile env.fs filename = some b)
    (hneq : env.sha384 b ≠ expected) :
    loadRecordFromFile env filename expected =
      .error (.checksumMismatchError expected (env.sha384 b)) := by
  unfold loadRecordFromFile
  rw [hread]
  exact if_neg fun h => hneq h.symm

theorem loadRecordFromFile_checksum_mismatch_witness :
    loadRecordFromFile ⟨fun _ => [1], fun c => .ok c, fun _ => .ok (NewRollingRecord 0),
        [("f", [0])]⟩ "f" [2] = .error (.checksumMismatchError [2] [1]) :=
  loadRecordFromFile_checksum_mismatch _ "f" [2] [0] rfl (by decide)

/-- C7: whenever the balance-update check is due — the latest reportable
balances block is beyond the recorded balances block and no submission flag
is recorded — the computed target slot is the floor of
`(blockTime - genesisTime) / secondsPerSlot` (block times at or after
genesis, as produced by the chain). -/
theorem isNetworkBalanceUpdateRequired_target (latestReportableBalancesBlock balancesBlock : Nat)
    (hasSubmitted : Bool) (blockTime genesisTime secondsPerSlot : Nat)
    (hdue : balancesBlock < latestReportableBalancesBlock) (hsub : hasSubmitted = false)
    (_hg : genesisTime ≤ blockTime) :
    isNetworkBalanceUpdateRequired latestReportableBalancesBlock balancesBlock hasSubmitted
        blockTime genesisTime secondsPerSlot =
      (true, (blockTime - genesisTime) / secondsPerSlot) := by
  unfold isNetworkBalanceUpdateRequired
  rw [if_neg (by omega), hsub]
  simp

theorem isNetworkBalanceUpdateRequired_target_witness :
    isNetworkBalanceUpdateRequired 5 3 false 144 0 12 = (true, 12) :=
  isNetworkBalanceUpdateRequired_target 5 3 false 144 0 12 (by decide) rfl (by decide)

/-- C8: the claim asserts that with an obligation due, `ProcessNewHeadState`
gates on the earliest due target slot, and when the latest finalized slot
has not reached it the call logs and returns without error. The earliest
target is indeed the minimum of the due targets, but in the source neither
due path contains a `return` statement: the not-yet-finalized branch only
logs a TODO placeholder and control falls off the end of a function whose
signature requires an `error` result, which Go rejects ("missing return").
Evaluated at a due balance update targeting slot 100 with finalized slot 50,
the embedded control flow reaches the end of the body after the log; it also
does so when the target is finalized. -/
theorem processNewHeadState_falls_off_end :
    ProcessNewHeadState 50 (true, 100) (false, 0) = .fellOffEnd true ∧
    earliestRequiredSlot true 100 true 200 = 100 ∧
    earliestRequiredSlot true 300 true 200 = 200 ∧
    ProcessNewHeadState 250 (true, 100) (true, 200) = .fellOffEnd false := by
  decide

/-- C10: for every slot at or below the record's pending slot — including
slots strictly beyond `LastProcessedSlot` — `updateToSlot` returns
`(false, nil)` at once: no state retrieval is performed and the record is
returned unchanged, for any behaviour of the state provider and of the
record update. -/
theorem updateToSlot_skips_at_or_below_pending (getState : Nat → Except Unit StateSnapshot)
    (updateToState : RollingRecord → StateSnapshot → Except Unit (Bool × RollingRecord))
    (record : RollingRecord) (slot : Nat) (h : slot ≤ record.PendingSlot) :
    updateToSlot getState updateToState record slot = (.ok false, record, false) := by
  unfold updateToSlot
  exact if_pos h

theorem updateToSlot_skips_at_or_below_pending_witness :
    updateToSlot (fun _ => .error ()) (fun r _ => .ok (true, r))
      ⟨0, 5, 10, []⟩ 7 = (.ok false, ⟨0, 5, 10, []⟩, false) :=
  updateToSlot_skips_at_or_below_pending _ _ ⟨0, 5, 10, []⟩ 7 (by decide)

/-- C4 counterexample: the claim asserts a malformed catalog line aborts
only that candidate and the scan continues to the next older one. Concrete
input: a catalog whose newest line does not split into two fields on the
double-space separator, while the older entry (slot 100, within both bounds,
checksum matching) would load successfully — the whole recover call
nevertheless fails with the parse error instead of returning that record. -/
theorem loadRecordFromDisk_malformed_line_counterexample :
    loadRecordFromDisk ⟨fun b => b, fun b => .ok b, fun _ => .ok (NewRollingRecord 0),
        [("r/100-3.json.zst", [0])]⟩ 250 280
        (some "00  r/100-3.json.zst\nmalformed line") =
      .error (.parseLineError "malformed line" 1) :=
  rfl

/-- C4 (amended): a parse failure on a catalog line reached by the scan
fails the whole recover call; the scan does not continue to any older
candidate (only blank lines are skipped). Both parse-failure cases of the
claim are covered: a non-blank line that does not split into exactly two
fields on the double-space separator fails the call with the parse error,
and a line whose two fields split fine but whose filename's embedded slot
cannot be extracted fails the call with the wrapped slot-scan error. -/
theorem loadLoop_parse_error_fails (env : StoreEnv) (startSlot targetSlot : Nat)
    (lines : List String) (j : Nat) (hj : j < lines.length)
    (hne : lines.getD (lines.length - (j + 1)) "" ≠ "") :
    ((splitFields (lines.getD (lines.length - (j + 1)) "")).length ≠ 2 →
      loadLoop env startSlot targetSlot lines (j + 1) =
        .error (.parseLineError (lines.getD (lines.length - (j + 1)) "")
          (splitFields (lines.getD (lines.length - (j + 1)) "")).length)) ∧
    (∀ checksumString filename e,
      splitFields (lines.getD (lines.length - (j + 1)) "") = [checksumString, filename] →
      getSlotFromFilename filename = .error e →
      loadLoop env startSlot targetSlot lines (j + 1) =
        .error (.scanLineError (lines.getD (lines.length - (j + 1)) "") e)) := by
  have hguard : ¬lines.length < j + 1 := by omega
  constructor
  · intro hsplit
    unfold loadLoop
    rw [if_neg hguard, if_neg hne]
    rcases h : splitFields (lines.getD (lines.length - (j + 1)) "")
      with _ | ⟨a, _ | ⟨b, _ | ⟨c, rest⟩⟩⟩
    · rfl
    · rfl
    · rw [h] at hsplit
      exact absurd rfl hsplit
    · rfl
  · intro checksumString filename e hsf hslot
    unfold loadLoop
    rw [if_neg hguard, if_neg hne, hsf]
    dsimp only
    rw [hslot]

theorem loadLoop_parse_error_fails_witness :
    loadLoop ⟨fun b => b, fun c => .ok c, fun _ => .ok (NewRollingRecord 0),
        [("r/100-3.json.zst", [0])]⟩ 250 280
        ["00  r/100-3.json.zst", "malformed line"] 1 =
      .error (.parseLineError "malformed line" 1) ∧
    loadLoop ⟨fun b => b, fun c => .ok c, fun _ => .ok (NewRollingRecord 0), []⟩ 250 280
        ["00  badname"] 1 =
      .error (.scanLineError "00  badname" (.slotFilenameFormatError "badname")) :=
  ⟨(loadLoop_parse_error_fails _ 250 280 ["00  r/100-3.json.zst", "malformed line"] 0
      (by decide) (by decide)).1 (by decide),
    (loadLoop_parse_error_fails _ 250 280 ["00  badname"] 0 (by decide) (by decide)).2
      "00" "badname" (.slotFilenameFormatError "badname") (by decide) rfl⟩

/-- C5 counterexample: the claim asserts that two saves with an unchanged
`lastProcessedSlot` produce one checkpoint file and one catalog entry for
that slot. Concrete run: saving the same record (last processed slot 5)
twice from an empty store leaves one file but a catalog with two identical
non-blank entries, because no guard skips the save and every invocation
appends a catalog line. -/
theorem saveRecordToFile_duplicate_entry_counterexample :
    saveRecordToFile (fun b => b) (fun b => b) (fun _ => .ok [1, 2]) 32 "p"
        ⟨0, 5, 5, []⟩ [] "" =
      .ok ([("p/5-0.json.zst", [1, 2])], "0102  p/5-0.json.zst\n") ∧
    saveRecordToFile (fun b => b) (fun b => b) (fun _ => .ok [1, 2]) 32 "p"
        ⟨0, 5, 5, []⟩ [("p/5-0.json.zst", [1, 2])] "0102  p/5-0.json.zst\n" =
      .ok ([("p/5-0.json.zst", [1, 2])],
        "0102  p/5-0.json.zst\n0102  p/5-0.json.zst\n") ∧
    ((splitLines "0102  p/5-0.json.zst\n0102  p/5-0.json.zst\n").filter
      (fun l => l != "")).length = 2 :=
  ⟨rfl, rfl, rfl⟩

/-- C5 (amended): `saveRecordToFile` has no unchanged-slot guard — every
invocation appends a catalog line. Two consecutive saves of a record whose
`lastProcessedSlot` is unchanged write the same checkpoint filename, so the
file store after the second save equals the store after the first (one
file), but the catalog gains two identical entries for that slot. -/
theorem saveRecordToFile_appends_every_time (sha384 compress : Bytes → Bytes)
    (serialize : RollingRecord → Except Unit Bytes) (slotsPerEpoch : Nat)
    (recordsPath : String) (record : RollingRecord) (fs : FileSystem) (catalog : String)
    (b : Bytes) (hser : serialize record = .ok b) :
    (let filename := recordsFilename recordsPath record.LastProcessedSlot
        (record.LastProcessedSlot / slotsPerEpoch)
     let line := hexEncode (sha384 (compress b)) ++ "  " ++ filename ++ "\n"
     let fs1 := writeFile fs filename (compress b)
     saveRecordToFile sha384 compress serialize slotsPerEpoch recordsPath record fs catalog =
        .ok (fs1, catalog ++ line) ∧
      saveRecordToFile sha384 compress serialize slotsPerEpoch recordsPath record fs1
          (catalog ++ line) =
        .ok (fs1, catalog ++ line ++ line)) := by
  unfold saveRecordToFile
  rw [hser]
  exact ⟨rfl, by dsimp only; rw [writeFile_writeFile]⟩

theorem saveRecordToFile_appends_every_time_witness :
    saveRecordToFile (fun c => c) (fun c => c) (fun _ => .ok [3]) 32 "q"
        ⟨0, 64, 64, []⟩ [] "" =
      .ok ([("q/64-2.json.zst", [3])], "03  q/64-2.json.zst\n") ∧
    saveRecordToFile (fun c => c) (fun c => c) (fun _ => .ok [3]) 32 "q"
        ⟨0, 64, 64, []⟩ [("q/64-2.json.zst", [3])] "03  q/64-2.json.zst\n" =
      .ok ([("q/64-2.json.zst", [3])], "03  q/64-2.json.zst\n03  q/64-2.json.zst\n") :=
  saveRecordToFile_appends_every_time (fun c => c) (fun c => c) (fun _ => .ok [3]) 32 "q"
    ⟨0, 64, 64, []⟩ [] "" [3] rfl

/-- C9: `CompressedCid` is deterministic and write-idempotent — given a
first call succeeding from some file store, the same call on inputs with
identical serialized bytes and identical full path, run against the store
the first call produced, returns the identical CID and leaves the store
identical; and the store holds exactly the compressed bytes at the path with
the fixed IPFS extension appended. Identical CIDs for identical inputs from
the same store hold by functionality of the embedding; this statement is the
stronger sequential form. -/
theorem compressedCid_deterministic {C : Type} (compress : Bytes → Bytes)
    (singleFileDirIPFSCid : Bytes → String → Except Unit C) (data : Bytes)
    (fullPath : String) (fs fs1 : FileSystem) (c1 : C)
    (h : CompressedCid compress singleFileDirIPFSCid (.ok data) fullPath fs =
      .ok (c1, fs1)) :
    CompressedCid compress singleFileDirIPFSCid (.ok data) fullPath fs1 =
      .ok (c1, fs1) ∧
    readFile fs1 (fullPath ++ RewardsTreeIpfsExtension) = some (compress data) := by
  unfold CompressedCid at h ⊢
  dsimp only at h ⊢
  rcases hc : singleFileDirIPFSCid (compress data)
      (baseName (fullPath ++ RewardsTreeIpfsExtension)) with e | c
  · rw [hc] at h
    exact Except.noConfusion h
  · rw [hc] at h
    dsimp only at h ⊢
    injection h with hpair
    obtain ⟨rfl, rfl⟩ := Prod.mk.inj hpair
    constructor
    · rw [writeFile_writeFile]
    · exact readFile_writeFile fs (fullPath ++ RewardsTreeIpfsExtension) (compress data)

theorem compressedCid_deterministic_witness :
    CompressedCid (fun b => 7 :: b) (fun b nm => .ok (b.length + nm.length)) (.ok [1])
        "a/f.json" [("a/f.json.zst", [7, 1])] = .ok (12, [("a/f.json.zst", [7, 1])]) ∧
    readFile [("a/f.json.zst", [7, 1])] ("a/f.json" ++ RewardsTreeIpfsExtension) =
      some [7, 1] :=
  compressedCid_deterministic (fun b => 7 :: b) (fun b nm => .ok (b.length + nm.length))
    [1] "a/f.json" [] [("a/f.json.zst", [7, 1])] 12 rfl

theorem ceilDivInt_natCast (m s : Nat) (hs : 0 < s) :
    ceilDivInt (m : Int) (s : Int) = (((m + s - 1) / s : Nat) : Int) := by
  have hs' : (0 : Int) < (s : Int) := by exact_mod_cast hs
  unfold ceilDivInt
  rw [Int.fdiv_eq_ediv _ (le_of_lt hs')]
  have hmod : s * ((m + s - 1) / s) + (m + s - 1) % s = m + s - 1 := Nat.div_add_mod _ _
  have hltr : (m + s - 1) % s < s := Nat.mod_lt _ hs
  set q := (m + s - 1) / s with hq
  set r := (m + s - 1) % s with hr
  obtain ⟨A, hA⟩ : ∃ A, A = s * q := ⟨s * q, rfl⟩
  rw [← hA] at hmod
  have key : m ≤ A ∧ A ≤ m + s - 1 := by omega
  rw [hA] at key
  obtain ⟨r2, hr2⟩ := Nat.le.dest key.1
  have hr2lt : r2 < s := by
    have h2 := key.2
    rw [← hr2] at h2
    omega
  have hcast : (m : Int) + (r2 : Int) = (s : Int) * (q : Int) := by exact_mod_cast hr2
  have hexpr : -(m : Int) = (r2 : Int) + (s : Int) * (-(q : Int)) := by
    linear_combination (-1 : Int) * hcast
  rw [hexpr, Int.add_mul_ediv_left _ _ (ne_of_gt hs'),
    Int.ediv_eq_zero_of_lt (by positivity) (by exact_mod_cast hr2lt)]
  omega

/-- C6: whenever the rewards-interval check is due, the target slot is the
ceiling division of the interval end time measured from genesis
(`endTime = intervalStart + intervalDuration * intervalsPassed`) by
`secondsPerSlot`, snapped forward to the last slot of its containing epoch,
`rawTargetSlot / slotsPerEpoch * slotsPerEpoch + (slotsPerEpoch - 1)`.
Hypotheses fix the well-formed time frame (positive slot time, genesis not
after the interval start, interval start not after the state time) in which
the source's signed-duration arithmetic coincides with the natural-number
form of the claim. -/
theorem isRewardsIntervalSubmissionRequired_target (genesisTime startTime intervalTime : Nat)
    (beaconSlotNumber secondsPerSlot slotsPerEpoch : Nat) (hasSubmitted : Bool)
    (hsps : 0 < secondsPerSlot)
    (hgs : genesisTime ≤ startTime)
    (hss : startTime ≤ genesisTime + secondsPerSlot * beaconSlotNumber)
    (hdue : (isRewardsIntervalSubmissionRequired genesisTime startTime intervalTime
      beaconSlotNumber secondsPerSlot slotsPerEpoch hasSubmitted).1 = true) :
    (isRewardsIntervalSubmissionRequired genesisTime startTime intervalTime
      beaconSlotNumber secondsPerSlot slotsPerEpoch hasSubmitted).2 =
      (let intervalsPassed :=
        (genesisTime + secondsPerSlot * beaconSlotNumber - startTime) / intervalTime
       let endTime := startTime + intervalTime * intervalsPassed
       let rawTargetSlot := (endTime - genesisTime + secondsPerSlot - 1) / secondsPerSlot
       rawTargetSlot / slotsPerEpoch * slotsPerEpoch + (slotsPerEpoch - 1)) := by
  unfold isRewardsIntervalSubmissionRequired at hdue ⊢
  dsimp only at hdue ⊢
  generalize hP : secondsPerSlot * beaconSlotNumber = P at hss hdue ⊢
  set T := genesisTime + P - startTime with hT
  have e1 : (genesisTime : Int) + (P : Int) - (startTime : Int) = (T : Int) := by omega
  rw [e1] at hdue ⊢
  rw [show ((T : Int)).tdiv (intervalTime : Int) = ((T / intervalTime : Nat) : Int) from
    (Int.ofNat_tdiv T intervalTime).symm] at hdue ⊢
  set k := T / intervalTime with hk
  by_cases hzero : ((k : Nat) : Int) = 0
  · rw [if_pos hzero] at hdue
    simp at hdue
  · rw [if_neg hzero] at hdue ⊢
    by_cases hb : hasSubmitted = true
    · rw [if_pos hb] at hdue
      simp at hdue
    · rw [if_neg hb]
      dsimp only
      obtain ⟨M, hM⟩ : ∃ M, intervalTime * k = M := ⟨_, rfl⟩
      have hMc : (intervalTime : Int) * (k : Int) = (M : Int) := by exact_mod_cast hM
      rw [hMc, hM]
      have e2 : (startTime : Int) + (M : Int) - (genesisTime : Int)
          = ((startTime + M - genesisTime : Nat) : Int) := by omega
      rw [e2, ceilDivInt_natCast _ _ hsps, Int.toNat_ofNat]

theorem isRewardsIntervalSubmissionRequired_target_witness :
    (isRewardsIntervalSubmissionRequired 0 240 240 40 12 32 false).2 = 63 :=
  isRewardsIntervalSubmissionRequired_target 0 240 240 40 12 32 false
    (by decide) (by decide) (by decide) rfl

end Smartnode
